import Mathlib

/-!
A formal model of the `yeet` stackful generator runtime
(`src/lib.rs`, `src/sys/mod.rs`, `src/sys/x64.rs`, `src/sys/arm64.rs`).

The runtime turns an ordinary function into a resumable producer task.  The
consumer repeatedly calls `Generator::next`, which context-switches into the
producer; the producer runs until it calls `yeet` (delivering a `Yield::Value`
through the `data_out` mailbox), returns (after which the trampoline
`generator_start` answers every entry with `Yield::StopIteration`), or panics
(the trampoline catches the unwind and delivers `Yield::Panic(payload)`).
The consumer-to-producer mailbox `data_in` carries a `Send` signal:
`Continue` resumes the producer normally, `Cancel` makes `yeet` raise a
private `CancelTask` panic so destructors run on the producer's stack.

The embedding models the control behaviour of this machinery as a state
machine over producer programs: a producer entry function is a finite
program built from `yeet`, `yeet_all` over a sub-generator, normal return
and panic.  Each context-switch round trip (`sys::enter` on the consumer
side, `sys::exit` inside `yield_internal` on the producer side, plus the
trampoline `generator_start` at the root of the producer stack) is one step
of the machine.  The thread-local `TASK_STACK` discipline of
`Generator::enter_with` and `yield_internal`, and the field initialisation
performed by `sys::new_task` / `sys::arm64::impl_new_task`, are modelled by
separate definitions below.
-/

namespace Yeet

/-- A panic payload (`Box<dyn Any + Send>` in the source): either a payload
raised by user code, or the private cancellation sentinel `CancelTask`
(lib.rs, `struct CancelTask`).  `what.is::<CancelTask>()` in the source
corresponds to matching on the `cancelTask` constructor. -/
inductive Payload (P : Type) where
| user (p : P)
| cancelTask
deriving DecidableEq

/-- `enum Send` (lib.rs): the one-bit signal flowing consumer to producer. -/
inductive Send where
| Continue
| Cancel
deriving DecidableEq

/-- `enum Yield<T>` (lib.rs): data flowing producer to consumer through the
`data_out` mailbox. -/
inductive Yield (T P : Type) where
| StopIteration
| Panic (payload : Payload P)
| Value (v : T)
deriving DecidableEq

/-- A producer entry function, as a finite program over the four things user
code can do at the granularity the runtime observes: call `yeet v` and then
continue as `k`; call `yeet_all` on a sub-generator built from program `sub`
(`Generator::from_fn_ptr(sub)`) and then continue as `k`; return normally;
or panic with payload `p`.  User payloads cannot be the private `CancelTask`
type, which the crate never exports. -/
inductive Prog (T P : Type) where
| yeet (v : T) (k : Prog T P)
| yeetAll (sub : Prog T P) (k : Prog T P)
| ret
| panics (p : P)
deriving DecidableEq

/-- Structural size of a program, used as a termination measure. -/
def Prog.size {T P : Type} : Prog T P → Nat
| .yeet _ k => 1 + k.size
| .yeetAll sub k => 3 + sub.size + k.size
| .ret => 1
| .panics _ => 1

mutual
/-- The producer-side control point at which a task is parked inside
`yield_internal` (having just written `data_out`), together with what the
producer will do once it is resumed: either run the rest of its program, or
resume the `for` loop of `yeet_all` (lib.rs, `yeet_all`), which next calls
`next` on the sub-generator state `sub` and afterwards continues as `k`. -/
inductive PState (T P : Type) where
| prog (p : Prog T P)
| subLoop (sub : TaskState T P) (k : Prog T P)

/-- The consumer-visible state of a task between entries.
`NotStarted f`: `started == false`, `func == Some(f)` — the first
`sys::enter` will install the trampoline (the `Send` written into `data_in`
by that first entry is overwritten before the producer ever reads it).
`SuspendedY ps`: the producer is parked at a `yeet` inside `yield_internal`,
and will continue as `ps` when resumed with `Continue`.
`AfterPanic`: the trampoline caught a panic from the entry function and is
parked at `yield_internal(Yield::Panic(..))`; the reply signal is discarded
(`let _ = yield_internal(..)` in `generator_start`) and the trampoline then
enters the termination loop.
`Terminated`: the trampoline is in its termination loop, answering every
entry with `StopIteration` and discarding every reply signal. -/
inductive TaskState (T P : Type) where
| NotStarted (f : Prog T P)
| SuspendedY (ps : PState T P)
| AfterPanic
| Terminated
end

mutual
/-- Termination measure for producer control points. -/
def PState.size {T P : Type} : PState T P → Nat
| .prog p => p.size
| .subLoop sub k => 2 + sub.size + k.size

/-- Termination measure for task states. -/
def TaskState.size {T P : Type} : TaskState T P → Nat
| .NotStarted f => 1 + f.size
| .SuspendedY ps => 1 + ps.size
| .AfterPanic => 0
| .Terminated => 0
end

/-- The outcome of resuming the producer until it next gives control back to
the consumer: it either yielded a value and parked at control point `ps`
(the task is then `SuspendedY ps`), or the trampoline emitted
`StopIteration` (task henceforth `Terminated`), or the trampoline emitted
`Panic p` (task `AfterPanic`). -/
inductive StepRes (T P : Type) where
| yielded (v : T) (ps : PState T P)
| stopped
| panicked (p : Payload P)

mutual
/-- Run the producer from control point `ps` until it next writes `data_out`
and switches back to the consumer.  Mirrors, case by case: `yeet` (lib.rs)
writing `Yield::Value(v)`; `yeet_all` over a sub-generator (lib.rs), whose
`for` loop calls `Generator::next` on the sub-generator; the trampoline
`generator_start` (sys/mod.rs) entering its `StopIteration` termination loop
once the entry function returns; and the trampoline's inner
`catch_unwind(func)` converting a panic into `Yield::Panic(payload)`. -/
def runP {T P : Type} : PState T P → StepRes T P
| .prog (.yeet v k) => .yielded v (.prog k)
| .prog (.yeetAll sub k) => subStep (.NotStarted sub) k
| .prog .ret => .stopped
| .prog (.panics p) => .panicked (.user p)
| .subLoop sub k => subStep sub k
termination_by ps => ps.size
decreasing_by
all_goals simp [Prog.size, PState.size, TaskState.size]
all_goals omega

/-- One round of the `for` loop inside `yeet_all(sub)` (lib.rs): call
`Generator::next` on the sub-generator (which enters it with `Continue`).
`Some(v)` (a `yielded` step) re-yields `v` to the outer consumer and parks
the outer producer in the loop; `None` (`stopped`) ends the loop, drops the
sub-generator (its task is already terminated, so the drop cancellation
loop is invisible to the outer consumer) and continues as `k`; a re-raised
panic (`panicked p`) unwinds the outer producer and is caught by the outer
trampoline's inner boundary, which emits `Yield::Panic(p)` unchanged. -/
def subStep {T P : Type} (sub : TaskState T P) (k : Prog T P) : StepRes T P :=
match enterRes sub .Continue with
| .yielded v ps => .yielded v (.subLoop (.SuspendedY ps) k)
| .stopped => runP (.prog k)
| .panicked p => .panicked p
termination_by 1 + sub.size + k.size
decreasing_by
all_goals simp [Prog.size, PState.size, TaskState.size]
all_goals omega

/-- `sys::enter` (sys/mod.rs) combined with the producer-side code that
consumes the signal: entering a not-yet-started task installs the
trampoline and runs the entry function (the signal written into `data_in`
by this first entry is overwritten before the producer ever reads it);
entering a task parked at a `yeet` with `Continue` resumes the producer
normally; entering it with `Cancel` makes `yeet` raise the `CancelTask`
panic (lib.rs, `std::panic::panic_any(CancelTask)`), which unwinds the
producer stack into the trampoline's inner `catch_unwind`, which in turn
emits `Yield::Panic(CancelTask)`; a task parked at its panic yield or in
the termination loop discards the signal and answers `StopIteration`. -/
def enterRes {T P : Type} : TaskState T P → Send → StepRes T P
| .NotStarted f, _ => runP (.prog f)
| .SuspendedY ps, .Continue => runP ps
| .SuspendedY _, .Cancel => .panicked .cancelTask
| .AfterPanic, _ => .stopped
| .Terminated, _ => .stopped
termination_by σ _ => σ.size
decreasing_by
all_goals simp [Prog.size, PState.size, TaskState.size]
end

/-- The `Yield<T>` value the consumer reads from `data_out`. -/
def resYield {T P : Type} : StepRes T P → Yield T P
| .yielded v _ => .Value v
| .stopped => .StopIteration
| .panicked p => .Panic p

/-- The task state left behind by a producer step. -/
def resState {T P : Type} : StepRes T P → TaskState T P
| .yielded _ ps => .SuspendedY ps
| .stopped => .Terminated
| .panicked _ => .AfterPanic

/-- `sys::enter(task, data)` as the consumer observes it: the yielded value
read back from `data_out`, together with the task state afterwards.
Declared in the source to never panic: every producer fault arrives as the
`Panic` variant of the result, never as an unwind escaping `enter`. -/
def enter {T P : Type} (σ : TaskState T P) (s : Send) : Yield T P × TaskState T P :=
(resYield (enterRes σ s), resState (enterRes σ s))

/-- Iterated `sys::enter` with an explicit list of signals sent by the
consumer, collecting the yields. -/
def enterSeq {T P : Type} (σ : TaskState T P) : List Send → List (Yield T P) × TaskState T P
| [] => ([], σ)
| s :: rest =>
  let r := enter σ s
  let rs := enterSeq r.2 rest
  (r.1 :: rs.1, rs.2)

/-- What one call to `Generator::next` does on the consumer's stack: return
`Some v` or `None`, or re-raise a producer panic via
`std::panic::resume_unwind` (the `panicked` case). -/
inductive NextResult (T P : Type) where
| out (o : Option T)
| panicked (p : Payload P)
deriving DecidableEq

/-- `struct Generator<T>` (lib.rs): the task plus the `first` flag. -/
structure Generator (T P : Type) where
  task : TaskState T P
  first : Bool

/-- `Generator::from_fn_ptr` (lib.rs): wrap a fresh, not-yet-started task,
with `first = true`.  The entry function is not run. -/
def Generator.from_fn_ptr {T P : Type} (func : Prog T P) : Generator T P :=
{ task := .NotStarted func, first := true }

/-- Translation of the `match` in `Iterator::next for Generator` (lib.rs):
`StopIteration` becomes `None`, `Panic(what)` becomes
`resume_unwind(what)`, `Value(v)` becomes `Some(v)`. -/
def yieldToNext {T P : Type} : Yield T P → NextResult T P
| .StopIteration => .out none
| .Panic p => .panicked p
| .Value v => .out (some v)

/-- `Generator::next` (lib.rs): set `first = false`, enter the task with
`Continue`, and interpret the yield. -/
def Generator.next {T P : Type} (g : Generator T P) : NextResult T P × Generator T P :=
(yieldToNext (enter g.task .Continue).1, ⟨(enter g.task .Continue).2, false⟩)

/-- The results of `n` successive `Generator::next` calls. -/
def observe {T P : Type} : Generator T P → Nat → List (NextResult T P)
| _, 0 => []
| g, n + 1 => (g.next).1 :: observe (g.next).2 n

/-- The producer that yields the values of `vs` in order and then returns. -/
def progOfList {T P : Type} : List T → Prog T P
| [] => .ret
| v :: vs => .yeet v (progOfList vs)

/-- The producer that yields the values of `vs` in order and then panics
with payload `p`. -/
def progOfListPanic {T P : Type} (vs : List T) (p : P) : Prog T P :=
match vs with
| [] => .panics p
| v :: tl => .yeet v (progOfListPanic tl p)

/-- What `Generator::drop` (lib.rs) does on the dropper's stack: either it
returns normally, or it re-raises a non-sentinel producer panic via
`std::panic::resume_unwind`. -/
inductive DropOutcome (P : Type) where
| returned
| panicked (p : Payload P)
deriving DecidableEq

/-- One iteration of the cancellation loop in `Generator::drop` (lib.rs):
enter the task with `Cancel` and interpret the yield.  `StopIteration`
breaks the loop (the task had already ended); `Panic(what)` with
`what.is::<CancelTask>()` breaks the loop (cancellation confirmed) while
any other panic payload is re-raised on the dropper's stack; a `Value` is
discarded and the loop continues with the task as the yield left it. -/
def dropStep {T P : Type} (σ : TaskState T P) : DropOutcome P ⊕ TaskState T P :=
match enterRes σ .Cancel with
| .stopped => .inl .returned
| .panicked .cancelTask => .inl .returned
| .panicked (.user p) => .inl (.panicked (.user p))
| .yielded _ ps => .inr (.SuspendedY ps)

/-- Termination measure for the cancellation loop: only a not-yet-started
task can answer `Cancel` with a `Value` (the first entry's signal is
overwritten unread), and it leaves the task suspended at a yield, where
`Cancel` is answered by `Panic(CancelTask)`. -/
def dropRank {T P : Type} : TaskState T P → Nat
| .NotStarted _ => 1
| _ => 0

/-- The cancellation loop of `Generator::drop` (lib.rs): iterate `dropStep`
until it breaks out of the loop. -/
def dropLoop {T P : Type} (σ : TaskState T P) : DropOutcome P :=
match h : dropStep σ with
| .inl o => o
| .inr σ' => dropLoop σ'
termination_by dropRank σ
decreasing_by
cases σ with
| NotStarted f =>
  rcases hr : enterRes (TaskState.NotStarted f) Send.Cancel with ⟨v, ps⟩ | _ | pl
  · simp [dropStep, hr] at h
    subst h
    simp [dropRank]
  · simp [dropStep, hr] at h
  · cases pl <;> simp [dropStep, hr] at h
| SuspendedY ps => simp [dropStep, enterRes] at h
| AfterPanic => simp [dropStep, enterRes] at h
| Terminated => simp [dropStep, enterRes] at h

/-- The cancellation loop with explicit fuel: `none` means the loop has not
broken out of the `loop` after `fuel` iterations. -/
def dropLoopFuel {T P : Type} : Nat → TaskState T P → Option (DropOutcome P)
| 0, _ => none
| n + 1, σ =>
  match dropStep σ with
  | .inl o => some o
  | .inr σ' => dropLoopFuel n σ'

/-- `Generator::drop` (lib.rs): a task that was never entered (`first` still
true) is freed directly, without entering the producer; otherwise the
cancellation loop runs. -/
def Generator.drop {T P : Type} (g : Generator T P) : DropOutcome P :=
if g.first then .returned else dropLoop g.task

/-- Sequential composition of producer programs: `p.seq q` runs `p` but
continues as `q` where `p` would return normally.  This is the program
that textually inlines `p`'s `yeet` calls in front of `q` — i.e. it
"iterates `p`'s values and calls `yeet` on each element in order",
and then continues. -/
def Prog.seq {T P : Type} : Prog T P → Prog T P → Prog T P
| .yeet v k, q => .yeet v (k.seq q)
| .yeetAll sub k, q => .yeetAll sub (k.seq q)
| .ret, q => q
| .panics p, _ => .panics p

/-- Graft the continuation `q` onto a producer control point: the control
point behaves the same but continues as `q` where its program would
return. -/
def graftP {T P : Type} : PState T P → Prog T P → PState T P
| .prog p, q => .prog (p.seq q)
| .subLoop sub k, q => .subLoop sub (k.seq q)

/-- Graft the continuation `q` onto a task state (used only on states whose
producer is still running). -/
def graftT {T P : Type} : TaskState T P → Prog T P → TaskState T P
| .NotStarted f, q => .NotStarted (f.seq q)
| .SuspendedY ps, q => .SuspendedY (graftP ps q)
| .AfterPanic, _ => .AfterPanic
| .Terminated, _ => .Terminated

/-- Graft the continuation `q` onto a producer step: a yielded value parks
with the grafted control point; a normal stop instead continues by running
`q`; a panic stays a panic. -/
def graftRes {T P : Type} (r : StepRes T P) (q : Prog T P) : StepRes T P :=
match r with
| .yielded v ps => .yielded v (graftP ps q)
| .stopped => runP (.prog q)
| .panicked p => .panicked p

/-- Whether the producer of a task can still run user code. -/
def TaskState.active {T P : Type} : TaskState T P → Bool
| .NotStarted _ => true
| .SuspendedY _ => true
| .AfterPanic => false
| .Terminated => false

/-- Simulation relation between the task of a producer that calls
`yeet_all` on a sub-generator built from `sub` and then continues as `q`,
and the task of the producer that runs `sub`'s code inline followed by
`q`.  Once the sub-generator part is over the two machines are in equal
states. -/
inductive SimR {T P : Type} (q : Prog T P) : TaskState T P → TaskState T P → Prop where
| eq (σ : TaskState T P) : SimR q σ σ
| start (sub : Prog T P) :
    SimR q (.NotStarted (.yeetAll sub q)) (.NotStarted (sub.seq q))
| loop (sub : TaskState T P) : sub.active = true →
    SimR q (.SuspendedY (.subLoop sub q)) (graftT sub q)

/-- Discriminator used to state that a task was mutated by a `next` call. -/
def TaskState.isAfterPanic {T P : Type} : TaskState T P → Bool
| .AfterPanic => true
| _ => false

/-- A type-erased pointer to a task context structure (`*mut dyn Any` in the
thread-local `TASK_STACK`), modelled as an opaque identifier. -/
abbrev TaskPtr := Nat

/-- Result of a computation that may instead abort the whole process
(`std::process::abort`). -/
inductive AbortOr (A : Type) where
| aborted
| ok (a : A)
deriving DecidableEq

/-- The `TASK_STACK` discipline of `Generator::enter_with` (lib.rs): push
the pointer to the owned task, run `sys::enter` (the `body`, which observes
the deeper stack — any nested `next` calls made by the producer push and
pop below it — and reports the stack as those nested calls left it), then
pop under `catch_unwind`; if the pop itself panics (`popFails`), abort the
process.  The Rust `Vec` pushes and pops at its end; the top of the stack
is the head of the list here. -/
def enterWithTL {A : Type} (this : TaskPtr) (popFails : Bool)
    (body : List TaskPtr → AbortOr (A × List TaskPtr)) (stk : List TaskPtr) :
    AbortOr (A × List TaskPtr) :=
match body (this :: stk) with
| .aborted => .aborted
| .ok (a, stk') => if popFails then .aborted else .ok (a, stk'.tail)

/-- `n` nested `enter_with` frames: the consumer enters the task `t₁`, whose
producer enters `t₂`, and so on, with the innermost producer running
`base`.  All the pops succeed. -/
def nestEnters {A : Type} (ids : List TaskPtr)
    (base : List TaskPtr → AbortOr (A × List TaskPtr)) :
    List TaskPtr → AbortOr (A × List TaskPtr) :=
match ids with
| [] => base
| t :: rest => enterWithTL t false (nestEnters rest base)

/-- The task lookup in `yield_internal` (lib.rs): peek the top of the
`TASK_STACK`; yielding from an empty stack is a programmer error (a panic
with a descriptive message, raised inside the producer), as is a failing
downcast of the top pointer to `Task<T>` (`typeOk` models the downcast
succeeding). -/
def yieldRoute (typeOk : TaskPtr → Bool) (stk : List TaskPtr) :
    Except String TaskPtr :=
match stk with
| [] => .error "Tried to yield from outside a generator!"
| top :: _ =>
  if typeOk top then .ok top else .error "Tried to yield a value of the wrong type!"

/-- Byte buffers as the allocator hands them out: a size in bytes and the
alignment the allocation is guaranteed to have, namely the alignment of the
element type of the boxed slice being allocated. -/
structure StackBuf where
  size : Nat
  align : Nat
deriving DecidableEq

/-- `size_of::<PageAlign>()`: `PageAlign` (sys/mod.rs) is a
`#[repr(align(0x10000))]` wrapper around one byte, so both its size and its
alignment are `0x10000` bytes. -/
def pageAlignBytes : Nat := 0x10000

/-- The register snapshot of the x86-64 backend (sys/x64.rs):
sixteen 64-bit registers and a program counter. -/
structure SnapshotX64 where
  regs : List Nat
  pc : Nat
deriving DecidableEq

/-- `MaybeUninit::<Snapshot>::zeroed()` for the x86-64 layout. -/
def SnapshotX64.zeroed : SnapshotX64 :=
{ regs := List.replicate 16 0, pc := 0 }

/-- The register snapshot of the aarch64 backend (sys/arm64.rs):
thirty-two 64-bit registers, a program counter, a stack pointer and a
`pstate` word. -/
structure SnapshotArm64 where
  regs : List Nat
  pc : Nat
  sp : Nat
  pstate : Nat
deriving DecidableEq

/-- `MaybeUninit::<Snapshot>::zeroed()` for the aarch64 layout. -/
def SnapshotArm64.zeroed : SnapshotArm64 :=
{ regs := List.replicate 32 0, pc := 0, sp := 0, pstate := 0 }

/-- `MaybeUninit<A>`: either uninitialised storage or an initialised value. -/
inductive MaybeUninit (A : Type) where
| uninit
| init (a : A)
deriving DecidableEq

/-- All-zero-bytes initial storage for a snapshot type. -/
class ZeroBytes (S : Type) where
  zeroed : S

instance : ZeroBytes SnapshotX64 := ⟨SnapshotX64.zeroed⟩

instance : ZeroBytes SnapshotArm64 := ⟨SnapshotArm64.zeroed⟩

/-- `struct Task<T>` (sys/mod.rs), at the level of its field initialisation:
the two snapshots, the two single-slot mailboxes, the stored entry
function, the owning stack buffer and the started flag. -/
structure TaskRec (S T P : Type) where
  rx_snap : MaybeUninit S
  tx_snap : MaybeUninit S
  data_out : MaybeUninit (Yield T P)
  data_in : MaybeUninit Send
  func : Option (Prog T P)
  stack : StackBuf
  started : Bool

/-- `sys::new_task` (sys/mod.rs): `rx_snap`, `data_out` and `data_in` are
left uninitialised, `tx_snap` is zero-initialised, `func` is stored, and
the stack is `vec![PageAlign(0); 2048 * 1024 / size_of::<PageAlign>()]`
boxed and pinned — `2048 * 1024 / 0x10000` elements of `0x10000` bytes
each, with the element type's `0x10000`-byte alignment.  `started` is
false and the entry function is not run. -/
def new_task {S T P : Type} [ZeroBytes S] (func : Prog T P) : TaskRec S T P :=
{ rx_snap := .uninit,
  tx_snap := .init ZeroBytes.zeroed,
  data_out := .uninit,
  data_in := .uninit,
  func := some func,
  stack := { size := 2048 * 1024 / pageAlignBytes * pageAlignBytes,
             align := pageAlignBytes },
  started := false }

/-- `impl_new_task` of the aarch64 backend (sys/arm64.rs): same field
initialisation, but the stack is `vec![0u8; 2048 * 1024]` boxed and pinned —
a `[u8]` buffer, whose allocation is guaranteed only the alignment of `u8`,
namely one byte. -/
def impl_new_task {T P : Type} (func : Prog T P) : TaskRec SnapshotArm64 T P :=
{ rx_snap := .uninit,
  tx_snap := .init SnapshotArm64.zeroed,
  data_out := .uninit,
  data_in := .uninit,
  func := some func,
  stack := { size := 2048 * 1024, align := 1 },
  started := false }

/-- A terminated task answers every `next` with end-of-sequence, forever. -/
theorem observe_terminated {T P : Type} (k : Nat) :
    ∀ b : Bool, observe (⟨.Terminated, b⟩ : Generator T P) k
      = List.replicate k (.out none) := by
  induction k with
  | zero => intro b; simp [observe]
  | succ n ih =>
    intro b
    simp only [observe, Generator.next, enter, enterRes, resYield, resState,
      yieldToNext, List.replicate]
    exact congrArg _ (ih false)

/-- A task parked at its panic yield answers every subsequent `next` with
end-of-sequence, forever. -/
theorem observe_afterPanic {T P : Type} (k : Nat) (b : Bool) :
    observe (⟨.AfterPanic, b⟩ : Generator T P) k = List.replicate k (.out none) := by
  cases k with
  | zero => simp [observe]
  | succ n =>
    simp only [observe, Generator.next, enter, enterRes, resYield, resState,
      yieldToNext, List.replicate]
    exact congrArg _ (observe_terminated n false)

/-- Driving a task whose next producer step is the program `progOfList vs`
yields the values of `vs` and then end-of-sequence forever. -/
theorem observe_progList {T P : Type} (vs : List T) :
    ∀ (k : Nat) (b : Bool) (σ : TaskState T P),
      enterRes σ .Continue = runP (.prog (progOfList vs)) →
      observe ⟨σ, b⟩ (vs.length + k)
        = vs.map (fun v => .out (some v)) ++ List.replicate k (.out none) := by
  induction vs with
  | nil =>
    intro k b σ h
    cases k with
    | zero => simp [observe]
    | succ j =>
      have h0 : enterRes σ Send.Continue = .stopped := by
        rw [h]; simp [progOfList, runP]
      rw [show ([] : List T).length + (j + 1) = j + 1 by simp]
      simp only [observe, Generator.next, enter, h0, resYield, resState,
        yieldToNext, List.map_nil, List.nil_append, List.replicate]
      exact congrArg _ (observe_terminated j false)
  | cons v tl ih =>
    intro k b σ h
    have h0 : enterRes σ Send.Continue = .yielded v (.prog (progOfList tl)) := by
      rw [h]; simp [progOfList, runP]
    have hlen : (v :: tl).length + k = (tl.length + k) + 1 := by
      simp [List.length]; omega
    rw [hlen]
    simp only [observe, Generator.next, enter, h0, resYield, resState,
      yieldToNext, List.map_cons, List.cons_append]
    exact congrArg _ (ih k false _ (by simp [enterRes]))

/-- Driving a task whose next producer step is `progOfListPanic vs p` yields
the values of `vs`, then the re-raised panic `p`, then end-of-sequence
forever. -/
theorem observe_progPanic {T P : Type} (vs : List T) (p : P) :
    ∀ (k : Nat) (b : Bool) (σ : TaskState T P),
      enterRes σ .Continue = runP (.prog (progOfListPanic vs p)) →
      observe ⟨σ, b⟩ (vs.length + 1 + k)
        = vs.map (fun v => .out (some v))
          ++ .panicked (.user p) :: List.replicate k (.out none) := by
  induction vs with
  | nil =>
    intro k b σ h
    have h0 : enterRes σ Send.Continue = .panicked (.user p) := by
      rw [h]; simp [progOfListPanic, runP]
    rw [show ([] : List T).length + 1 + k = k + 1 by simp; omega]
    simp only [observe, Generator.next, enter, h0, resYield, resState,
      yieldToNext, List.map_nil, List.nil_append]
    exact congrArg _ (observe_afterPanic k false)
  | cons v tl ih =>
    intro k b σ h
    have h0 : enterRes σ Send.Continue
        = .yielded v (.prog (progOfListPanic tl p)) := by
      rw [h]; simp [progOfListPanic, runP]
    have hlen : (v :: tl).length + 1 + k = (tl.length + 1 + k) + 1 := by
      simp [List.length]; omega
    rw [hlen]
    simp only [observe, Generator.next, enter, h0, resYield, resState,
      yieldToNext, List.map_cons, List.cons_append]
    exact congrArg _ (ih k false _ (by simp [enterRes]))

/-- C1.  For every producer entry function that yields the values
`v₀, …, vₙ` via `yeet` and then returns, a consumer repeatedly calling
`Generator::next` observes exactly `Some v₀, …, Some vₙ` followed by `None`
on every subsequent call, forever: the first `vs.length` results are the
values of `vs` in order, and the next `k` results are end-of-sequence, for
every `k`. -/
theorem C1_next_sequence {T P : Type} (vs : List T) (k : Nat) :
    observe (Generator.from_fn_ptr (P := P) (progOfList vs)) (vs.length + k)
      = vs.map (fun v => .out (some v)) ++ List.replicate k (.out none) :=
  observe_progList vs k true _ (by simp [enterRes, Generator.from_fn_ptr])

/-- C2.  For every producer entry function that yields `v₀, …, vₖ` via
`yeet` and then panics with payload `p`, the consumer observes
`Some v₀, …, Some vₖ` from successive `next` calls, then a `next` call that
re-raises a fault whose payload is identically `p` (the `user p` payload is
preserved through the `Panic` variant of the outbound mailbox — `enter`
itself is total and never unwinds), followed by end-of-sequence forever. -/
theorem C2_panic_sequence {T P : Type} (vs : List T) (p : P) (k : Nat) :
    observe (Generator.from_fn_ptr (progOfListPanic vs p)) (vs.length + 1 + k)
      = vs.map (fun v => .out (some v))
        ++ .panicked (.user p) :: List.replicate k (.out none) :=
  observe_progPanic vs p k true _ (by simp [enterRes, Generator.from_fn_ptr])

/-- C3, counterexample.  The claim says that after `next` has returned a
`Panic` outcome the `Generator` short-circuits every subsequent `next`
without re-entering the task.  On the code this is false: `Generator` has
no exhausted state and `next` unconditionally calls `enter_with`.  For the
concrete producer that immediately panics with payload `0`, the first
`next` re-raises the panic and leaves the task parked at its panic yield;
the second `next` returns end-of-sequence but mutates the task (the
trampoline is re-entered and moves from its panic yield into its
termination loop), which a short-circuiting `next` could not do. -/
theorem C3_counterexample :
    ((Generator.from_fn_ptr (T := Nat) (P := Nat) (.panics 0)).next).1
        = .panicked (.user 0)
    ∧ (((Generator.from_fn_ptr (T := Nat) (P := Nat) (.panics 0)).next).2.next).1
        = .out none
    ∧ ((Generator.from_fn_ptr (T := Nat) (P := Nat) (.panics 0)).next).2.task.isAfterPanic
        = true
    ∧ (((Generator.from_fn_ptr (T := Nat) (P := Nat) (.panics 0)).next).2.next).2.task.isAfterPanic
        = false := by
  refine ⟨?_, ?_, ?_, ?_⟩ <;>
    simp [Generator.from_fn_ptr, Generator.next, enter, enterRes, runP,
      resYield, resState, yieldToNext, TaskState.isAfterPanic]

/-- C3, amended.  After a call to `Generator::next` has returned a `Panic`
outcome, every subsequent `next` call returns end-of-sequence, forever —
but not by short-circuiting: each such call re-enters the task, whose
trampoline termination loop answers `StopIteration`. -/
theorem C3_sticky_after_panic {T P : Type} (g : Generator T P) (p : Payload P)
    (h : (g.next).1 = .panicked p) :
    ∀ k, observe (g.next).2 k = List.replicate k (.out none) := by
  rcases hr : enterRes g.task .Continue with ⟨v, ps⟩ | _ | pl
  · simp [Generator.next, enter, hr, resYield, yieldToNext] at h
  · simp [Generator.next, enter, hr, resYield, yieldToNext] at h
  · intro k
    have h2 : (g.next).2 = ⟨.AfterPanic, false⟩ := by
      simp [Generator.next, enter, hr, resState]
    rw [h2]
    exact observe_afterPanic k false

/-- Witness for the amended C3, at the producer that panics at once. -/
theorem C3_sticky_after_panic_witness :
    observe ((Generator.from_fn_ptr (T := Nat) (P := Nat) (.panics 0)).next).2 2
      = List.replicate 2 (.out none) :=
  C3_sticky_after_panic _ (.user 0)
    (by simp [Generator.from_fn_ptr, Generator.next, enter, enterRes, runP,
      resYield, yieldToNext]) 2

/-- Iterating `enter` from the termination loop yields `StopIteration` for
every signal sent. -/
theorem enterSeq_terminated {T P : Type} (sigs : List Send) :
    enterSeq (.Terminated : TaskState T P) sigs
      = (List.replicate sigs.length .StopIteration, .Terminated) := by
  induction sigs with
  | nil => simp [enterSeq]
  | cons s rest ih =>
    simp [enterSeq, enter, enterRes, resYield, resState, ih, List.replicate]

/-- C10.  Once the trampoline has emitted `StopIteration` (state
`Terminated`) or `Panic` (state `AfterPanic`), it discards whatever `Send`
signal the consumer replies with: for every sequence of signals — in
particular any number of `Cancel`s — every subsequent entry is answered
with `StopIteration`, and no `CancelTask` unwind or any other fault is
ever produced. -/
theorem C10_terminal_discard {T P : Type} (sigs : List Send) :
    (enterSeq (.AfterPanic : TaskState T P) sigs).1
        = List.replicate sigs.length .StopIteration
    ∧ (enterSeq (.Terminated : TaskState T P) sigs).1
        = List.replicate sigs.length .StopIteration := by
  constructor
  · cases sigs with
    | nil => simp [enterSeq]
    | cons s rest =>
      simp [enterSeq, enter, enterRes, resYield, resState,
        enterSeq_terminated, List.replicate]
  · simp [enterSeq_terminated]

/-- Unfolding lemma for the cancellation loop when the step breaks out. -/
theorem dropLoop_inl {T P : Type} {σ : TaskState T P} {o : DropOutcome P}
    (h : dropStep σ = .inl o) : dropLoop σ = o := by
  rw [dropLoop]
  split
  · rename_i o' h'; rw [h] at h'; cases h'; rfl
  · rename_i σ' h'; rw [h] at h'; cases h'

/-- Unfolding lemma for the cancellation loop when the step continues. -/
theorem dropLoop_inr {T P : Type} {σ σ' : TaskState T P}
    (h : dropStep σ = .inr σ') : dropLoop σ = dropLoop σ' := by
  rw [dropLoop]
  split
  · rename_i o' h'; rw [h] at h'; cases h'
  · rename_i σ'' h'; rw [h] at h'; cases h'; rfl

/-- A task suspended at a yield answers `Cancel` with the sentinel panic,
which the cancellation loop recognises and breaks on. -/
theorem dropStep_suspended {T P : Type} (ps : PState T P) :
    dropStep (.SuspendedY ps) = .inl .returned := by
  simp [dropStep, enterRes]

/-- The only way a cancellation step can continue the loop is a `Value`
yield, which leaves the task suspended at a yield. -/
theorem dropStep_inr_shape {T P : Type} {σ σ' : TaskState T P}
    (h : dropStep σ = .inr σ') : ∃ ps, σ' = .SuspendedY ps := by
  rcases hr : enterRes σ Send.Cancel with ⟨v, ps⟩ | _ | pl
  · simp [dropStep, hr] at h
    exact ⟨ps, h.symm⟩
  · simp [dropStep, hr] at h
  · cases pl <;> simp [dropStep, hr] at h

/-- C4.  `Generator::drop` behaves as follows: if the task was never
entered (`first` still true) it frees the task directly, without entering
the producer — for every task state, including ones whose entry function
would panic or yield; otherwise it enters the task with `Cancel` and, for
each yield received, `StopIteration` ends the loop, a `Panic` carrying the
`CancelTask` sentinel ends the loop without re-raising, a `Panic` with any
other payload is re-raised on the dropper's stack, and a `Value` is
discarded, the cancellation loop continuing from the state the yield left
behind. -/
theorem C4_drop_cases {T P : Type} (g : Generator T P) :
    (g.first = true → g.drop = .returned)
    ∧ (g.first = false →
        (∀ σ', enter g.task .Cancel = (.StopIteration, σ') → g.drop = .returned)
        ∧ (∀ σ', enter g.task .Cancel = (.Panic .cancelTask, σ') → g.drop = .returned)
        ∧ (∀ p σ', enter g.task .Cancel = (.Panic (.user p), σ') →
            g.drop = .panicked (.user p))
        ∧ (∀ v σ', enter g.task .Cancel = (.Value v, σ') →
            g.drop = dropLoop σ')) := by
  constructor
  · intro h
    simp [Generator.drop, h]
  · intro h
    have hd : g.drop = dropLoop g.task := by simp [Generator.drop, h]
    refine ⟨?_, ?_, ?_, ?_⟩
    · intro σ' he
      rcases hr : enterRes g.task Send.Cancel with ⟨v, ps⟩ | _ | pl <;>
        simp [enter, hr, resYield, resState] at he
      rw [hd, dropLoop_inl (show dropStep g.task = .inl .returned by
        simp [dropStep, hr])]
    · intro σ' he
      rcases hr : enterRes g.task Send.Cancel with ⟨v, ps⟩ | _ | pl <;>
        simp [enter, hr, resYield, resState] at he
      rcases pl with p | _
      · simp at he
      · rw [hd, dropLoop_inl (show dropStep g.task = .inl .returned by
          simp [dropStep, hr])]
    · intro p σ' he
      rcases hr : enterRes g.task Send.Cancel with ⟨v, ps⟩ | _ | pl <;>
        simp [enter, hr, resYield, resState] at he
      rcases pl with p' | _
      · simp at he
        rw [hd, dropLoop_inl (show dropStep g.task = .inl (.panicked (.user p')) by
          simp [dropStep, hr])]
        rw [he.1]
      · simp at he
    · intro v σ' he
      rcases hr : enterRes g.task Send.Cancel with ⟨v', ps⟩ | _ | pl <;>
        simp [enter, hr, resYield, resState] at he
      rw [hd, dropLoop_inr (show dropStep g.task = .inr (.SuspendedY ps) by
        simp [dropStep, hr])]
      rw [he.2]

/-- Witness for C4, exercising all five cases on concrete generators. -/
theorem C4_drop_cases_witness :
    Generator.drop (⟨.NotStarted (.panics 0), true⟩ : Generator Nat Nat) = .returned
    ∧ Generator.drop (⟨.Terminated, false⟩ : Generator Nat Nat) = .returned
    ∧ Generator.drop (⟨.SuspendedY (.prog .ret), false⟩ : Generator Nat Nat) = .returned
    ∧ Generator.drop (⟨.NotStarted (.panics 5), false⟩ : Generator Nat Nat)
        = .panicked (.user 5)
    ∧ Generator.drop (⟨.NotStarted (.yeet 9 .ret), false⟩ : Generator Nat Nat)
        = dropLoop (.SuspendedY (.prog .ret) : TaskState Nat Nat) := by
  refine ⟨?_, ?_, ?_, ?_, ?_⟩
  · exact (C4_drop_cases _).1 rfl
  · exact (((C4_drop_cases _).2 rfl).1) .Terminated
      (by simp [enter, enterRes, resYield, resState])
  · exact (((C4_drop_cases _).2 rfl).2.1) .AfterPanic
      (by simp [enter, enterRes, resYield, resState])
  · exact (((C4_drop_cases _).2 rfl).2.2.1) 5 .AfterPanic
      (by simp [enter, enterRes, runP, resYield, resState])
  · exact (((C4_drop_cases _).2 rfl).2.2.2) 9 (.SuspendedY (.prog .ret))
      (by simp [enter, enterRes, runP, resYield, resState])

/-- C5.  The cancellation loop in `Generator::drop` terminates for every
task state whatsoever — two iterations always suffice, because the
trampoline's termination sink answers `Cancel` with `StopIteration` once
the producer is done (second conjunct), a suspended producer answers it
with the sentinel panic, and the only continuing case (a `Value` from a
not-yet-started task, whose first entry discards the signal) leads to a
suspended producer.  So `drop` always terminates the producer before
returning. -/
theorem C5_drop_terminates {T P : Type} :
    (∀ σ : TaskState T P, dropLoopFuel 2 σ = some (dropLoop σ))
    ∧ (∀ s : Send, enterRes (.Terminated : TaskState T P) s = .stopped) := by
  constructor
  · intro σ
    rcases h : dropStep σ with o | σ'
    · simp [dropLoopFuel, h, dropLoop_inl h]
    · obtain ⟨ps, rfl⟩ := dropStep_inr_shape h
      rw [dropLoop_inr h, dropLoop_inl (dropStep_suspended ps)]
      simp [dropLoopFuel, h, dropStep_suspended]
  · intro s
    simp [enterRes]

/-- C6.  `yeet v` delivers `Value v` to the consumer and parks the producer
at the yield; when resumed, it inspects the consumer's reply: on `Continue`
it returns normally to its caller (the producer simply continues from its
parked control point), and on `Cancel` it raises the `CancelTask` sentinel
fault, which unwinds the producer's stack into the trampoline — the
consumer receives `Panic CancelTask`, and the trampoline then converts the
sentinel into the termination loop (the next entry is answered with
`StopIteration`). -/
theorem C6_yeet_signals {T P : Type} (v : T) (k : Prog T P) (ps : PState T P)
    (s : Send) :
    runP (.prog (.yeet v k)) = .yielded v (.prog k)
    ∧ enter (.SuspendedY (.prog (.yeet v k))) .Continue
        = (.Value v, .SuspendedY (.prog k))
    ∧ enterRes (.SuspendedY ps) .Continue = runP ps
    ∧ enter (.SuspendedY ps) .Cancel = (.Panic .cancelTask, .AfterPanic)
    ∧ enter (.AfterPanic : TaskState T P) s = (.StopIteration, .Terminated) := by
  refine ⟨?_, ?_, ?_, ?_, ?_⟩ <;>
    simp [enter, enterRes, runP, resYield, resState]

mutual
/-- Running a control point with the continuation `q` grafted on is the
same as running the original control point and grafting `q` onto the
resulting step. -/
theorem runP_graft {T P : Type} (ps : PState T P) (q : Prog T P) :
    runP (graftP ps q) = graftRes (runP ps) q := by
  match ps with
  | .prog (.yeet v k) => simp [graftP, Prog.seq, runP, graftRes]
  | .prog (.yeetAll sub k) =>
    have h := subStep_graft (.NotStarted sub) k q
    simp only [graftP, Prog.seq, runP]
    exact h
  | .prog .ret => simp [graftP, Prog.seq, runP, graftRes]
  | .prog (.panics p) => simp [graftP, Prog.seq, runP, graftRes]
  | .subLoop sub k =>
    have h := subStep_graft sub k q
    simp only [graftP, runP]
    exact h
termination_by ps.size
decreasing_by
all_goals simp [Prog.size, PState.size, TaskState.size]
all_goals omega

/-- One round of the `yeet_all` loop with the continuation `q` grafted onto
its post-loop program is the same as the original round with `q` grafted
onto the resulting step. -/
theorem subStep_graft {T P : Type} (sub : TaskState T P) (j q : Prog T P) :
    subStep sub (j.seq q) = graftRes (subStep sub j) q := by
  rcases hr : enterRes sub .Continue with ⟨v, ps⟩ | _ | pl
  · simp [subStep, hr, graftRes, graftP]
  · have h := runP_graft (.prog j) q
    simp only [subStep, hr]
    simpa [graftP] using h
  · simp [subStep, hr, graftRes]
termination_by 1 + sub.size + j.size
decreasing_by
all_goals simp [Prog.size, PState.size, TaskState.size]
end

/-- Entering a still-active task with the continuation `q` grafted on is
the same as entering the original task and grafting `q` onto the result. -/
theorem enterRes_graft {T P : Type} (σ : TaskState T P) (q : Prog T P)
    (s : Send) (h : σ.active = true) :
    enterRes (graftT σ q) s = graftRes (enterRes σ s) q := by
  cases σ with
  | NotStarted f =>
    have hg := runP_graft (.prog f) q
    simp only [graftT, enterRes]
    simpa [graftP] using hg
  | SuspendedY ps =>
    cases s with
    | Continue =>
      have hg := runP_graft ps q
      simp only [graftT, enterRes]
      exact hg
    | Cancel => simp [graftT, enterRes, graftRes]
  | AfterPanic => simp [TaskState.active] at h
  | Terminated => simp [TaskState.active] at h

/-- Core of the simulation step: if the producer of `σ1` is about to run a
`yeet_all` round over the sub-task `sub` with post-loop program `q`, and
the producer of `σ2` computes the graft of that round, the two `next`
results agree and the two successor states stay related. -/
theorem sim_step_core {T P : Type} {q : Prog T P} {σ1 σ2 : TaskState T P}
    (sub : TaskState T P)
    (e1 : enterRes σ1 .Continue = subStep sub q)
    (e2 : enterRes σ2 .Continue = graftRes (enterRes sub .Continue) q) :
    (enter σ1 .Continue).1 = (enter σ2 .Continue).1
    ∧ SimR q (enter σ1 .Continue).2 (enter σ2 .Continue).2 := by
  rcases hr : enterRes sub .Continue with ⟨v, ps⟩ | _ | pl
  · have f1 : enterRes σ1 .Continue = .yielded v (.subLoop (.SuspendedY ps) q) := by
      rw [e1]; simp [subStep, hr]
    have f2 : enterRes σ2 .Continue = .yielded v (graftP ps q) := by
      rw [e2, hr]; simp [graftRes]
    refine ⟨by simp [enter, f1, f2, resYield], ?_⟩
    have hs : SimR q (.SuspendedY (.subLoop (.SuspendedY ps) q))
        (graftT (.SuspendedY ps) q) := SimR.loop _ rfl
    simpa [enter, f1, f2, resState, graftT] using hs
  · have f1 : enterRes σ1 .Continue = runP (.prog q) := by
      rw [e1]; simp [subStep, hr]
    have f2 : enterRes σ2 .Continue = runP (.prog q) := by
      rw [e2, hr]; simp [graftRes]
    have he : enter σ1 .Continue = enter σ2 .Continue := by simp [enter, f1, f2]
    rw [he]
    exact ⟨rfl, .eq _⟩
  · have f1 : enterRes σ1 .Continue = .panicked pl := by
      rw [e1]; simp [subStep, hr]
    have f2 : enterRes σ2 .Continue = .panicked pl := by
      rw [e2, hr]; simp [graftRes]
    have he : enter σ1 .Continue = enter σ2 .Continue := by simp [enter, f1, f2]
    rw [he]
    exact ⟨rfl, .eq _⟩

/-- The simulation relation is preserved by one `next` step, with equal
consumer-visible results. -/
theorem sim_step {T P : Type} {q : Prog T P} {σ1 σ2 : TaskState T P}
    (h : SimR q σ1 σ2) :
    (enter σ1 .Continue).1 = (enter σ2 .Continue).1
    ∧ SimR q (enter σ1 .Continue).2 (enter σ2 .Continue).2 := by
  cases h with
  | eq σ => exact ⟨rfl, .eq _⟩
  | start sub =>
    refine sim_step_core (.NotStarted sub) ?_ ?_
    · simp [enterRes, runP]
    · have hg := runP_graft (.prog sub) q
      simp only [enterRes]
      simpa [graftP] using hg
  | loop sub hA =>
    refine sim_step_core sub ?_ ?_
    · simp [enterRes, runP]
    · exact enterRes_graft sub q .Continue hA

/-- Related tasks are observationally equal under repeated `next`. -/
theorem sim_observe {T P : Type} {q : Prog T P} :
    ∀ (n : Nat) {σ1 σ2 : TaskState T P}, SimR q σ1 σ2 →
      ∀ b1 b2 : Bool, observe ⟨σ1, b1⟩ n = observe ⟨σ2, b2⟩ n := by
  intro n
  induction n with
  | zero => intro σ1 σ2 h b1 b2; simp [observe]
  | succ m ih =>
    intro σ1 σ2 h b1 b2
    obtain ⟨hy, hs⟩ := sim_step h
    simp only [observe, Generator.next]
    rw [hy]
    exact congrArg _ (ih hs false false)

/-- C7.  For every sub-generator program `sub` and every continuation `q`,
a producer that calls `yeet_all` on a generator built from `sub` and then
continues as `q` produces, on the outer consumer, exactly the same sequence
of results as the producer that iterates `sub`'s values and calls `yeet` on
each element in order at that point (the program `sub.seq q`, which inlines
`sub`'s yields in front of `q`): every prefix of the two observation
sequences is identical — no reordering, insertion, or omission — including
end-of-sequence and re-raised panics. -/
theorem C7_yeet_all_equiv {T P : Type} (sub q : Prog T P) (n : Nat) :
    observe (Generator.from_fn_ptr (.yeetAll sub q)) n
      = observe (Generator.from_fn_ptr (sub.seq q)) n :=
  sim_observe n (SimR.start sub) true true

/-- C8.  The thread-local task stack satisfies the `enter_with` discipline:
a task pointer is pushed on every entry and popped when the consumer side
of the entry returns, so for any nest of entries whose inner bodies leave
the stack as they found it, the innermost running code sees exactly the
pushed pointers on top of the initial stack — its depth is the initial
depth plus the nesting depth of active `next` (or `drop`) calls, its top
is the innermost (currently running) task, and the stack is restored on
return.  Yielding when the stack is empty is an error — a fault with a
descriptive message inside the producer — while with a well-typed top the
yield is routed to the top, i.e. the currently running task.  If the pop
itself faults, the process is aborted even though `sys::enter` returned
normally. -/
theorem C8_task_stack (A B : Type) (tok : TaskPtr → Bool) :
    (∀ (ids stk : List TaskPtr) (f : List TaskPtr → A),
       nestEnters ids (fun s => .ok (f s, s)) stk
         = .ok (f (ids.reverse ++ stk), stk))
    ∧ yieldRoute tok [] = .error "Tried to yield from outside a generator!"
    ∧ (∀ (t : TaskPtr) (rest : List TaskPtr), tok t = true →
        yieldRoute tok (t :: rest) = .ok t)
    ∧ (∀ (t : TaskPtr) (body : List TaskPtr → AbortOr (B × List TaskPtr))
         (stk : List TaskPtr) (a : B) (stk' : List TaskPtr),
         body (t :: stk) = .ok (a, stk') → enterWithTL t true body stk = .aborted) := by
  refine ⟨?_, ?_, ?_, ?_⟩
  · intro ids
    induction ids with
    | nil => intro stk f; simp [nestEnters]
    | cons t rest ih =>
      intro stk f
      simp [nestEnters, enterWithTL, ih (t :: stk) f]
  · simp [yieldRoute]
  · intro t rest h
    simp [yieldRoute, h]
  · intro t body stk a stk' h
    simp [enterWithTL, h]

/-- Witness for C8: a two-deep nest reports the two pushed pointers on top
of the empty initial stack and restores it; routing picks the top; a
failing pop aborts. -/
theorem C8_task_stack_witness :
    nestEnters [1, 2] (fun s => AbortOr.ok (s, s)) [] = .ok ([2, 1], [])
    ∧ yieldRoute (fun _ => true) [5, 3] = .ok 5
    ∧ enterWithTL 7 true (fun s => AbortOr.ok ((0 : Nat), s)) [] = .aborted := by
  refine ⟨?_, ?_, ?_⟩
  · have h := (C8_task_stack (List TaskPtr) Nat (fun _ => true)).1 [1, 2] []
      (fun s => s)
    simpa using h
  · exact (C8_task_stack (List TaskPtr) Nat (fun _ => true)).2.2.1 5 [3] rfl
  · exact (C8_task_stack (List TaskPtr) Nat (fun _ => true)).2.2.2 7 _ [] 0
      [7] rfl

/-- C9, evaluated.  The generic `new_task` (sys/mod.rs) allocates a stack
of exactly `2048 * 1024` bytes aligned to `0x10000 ≥ 16` bytes,
zero-initialises `tx_snap`, stores the entry function unconsumed (it is
never run) and clears `started`.  The aarch64 `impl_new_task`
(sys/arm64.rs) initialises every field the same way and its stack is also
exactly 2 MiB — but it is a `vec![0u8; …]` buffer whose guaranteed
alignment is that of `u8`, namely `1 < 16`: the alignment part of the
claim fails for this variant. -/
theorem C9_new_task_eval :
    (new_task (S := SnapshotX64) (T := Nat) (P := Nat) .ret).stack.size
        = 2048 * 1024
    ∧ (new_task (S := SnapshotX64) (T := Nat) (P := Nat) .ret).stack.align
        = 0x10000
    ∧ 16 ≤ (new_task (S := SnapshotX64) (T := Nat) (P := Nat) .ret).stack.align
    ∧ (new_task (S := SnapshotX64) (T := Nat) (P := Nat) .ret).tx_snap
        = .init SnapshotX64.zeroed
    ∧ (new_task (S := SnapshotX64) (T := Nat) (P := Nat) .ret).func = some .ret
    ∧ (new_task (S := SnapshotX64) (T := Nat) (P := Nat) .ret).started = false
    ∧ (impl_new_task (T := Nat) (P := Nat) .ret).stack.size = 2048 * 1024
    ∧ (impl_new_task (T := Nat) (P := Nat) .ret).stack.align = 1
    ∧ (impl_new_task (T := Nat) (P := Nat) .ret).stack.align < 16
    ∧ (impl_new_task (T := Nat) (P := Nat) .ret).tx_snap
        = .init SnapshotArm64.zeroed
    ∧ (impl_new_task (T := Nat) (P := Nat) .ret).func = some .ret
    ∧ (impl_new_task (T := Nat) (P := Nat) .ret).started = false := by
  refine ⟨?_, rfl, ?_, rfl, rfl, rfl, rfl, rfl, ?_, rfl, rfl, rfl⟩ <;>
    norm_num [new_task, impl_new_task, pageAlignBytes]

end Yeet
